import Mathlib

/-!
# Hough line / circle detection: mode controller and dispatch loop

A shallow embedding of `hough_lines_circles_detection.cpp`.

* C `char` values are integers; the narrowing of `waitKey`'s `int` result into the
  `char winInput` is the explicit function `toChar` (8-bit, signed `char`).
* `cout` output is a list of `Out` tokens, one token per `<<` operand.
* The vision library (OpenCV) is a record `Vision` of functions over an abstract
  image type `Mat`; every call to it is recorded in a call log.
* In `Lib` the functions that call the library are embedded once more against a
  library with a state of its own (`Lib.Library`); run against the library that
  records its own calls (`Lib.recording`), they yield the call log above.
* The main loop consumes the list of values returned by successive `waitKey(10)`
  polls and the stream of frames delivered by `cam0.read`, and yields the list
  of observable events together with the final mode and the control status.
-/

namespace Hough

/-! ## Characters, constants -/

/-- Value of a character literal as a C `char`. -/
def ch (c : Char) : Int := Int.ofNat c.toNat

/-- Narrowing conversion `int → char` performed by `winInput = waitKey(10)`
(8-bit two's complement, `char` signed). -/
def toChar (x : Int) : Int := (x + 128) % 256 - 128

def RADIUS_OF_DOT : Int := 1
def DRAW_LINE_THICKNESS : Int := 3

/-- `Scalar(b, g, r)`: a colour in BGR order. -/
structure Scalar where
  b : Int
  g : Int
  r : Int
  deriving DecidableEq, Repr

def BGR_GREEN : Scalar := ⟨0, 255, 0⟩
def BGR_RED : Scalar := ⟨0, 0, 255⟩
def BGR_ORANGE : Scalar := ⟨0, 75, 255⟩

def CANNY_THRESHOLD_MAX : Int := 50
def CANNY_THRESHOLD_MIN : Int := 200
def CANNY_APERTURE_SIZE : Int := 3
def HOUGH_LINE_RHO : Int := 1
/-- Angular resolution in degrees; the source multiplies it by `DEG_TO_RAD`. -/
def HOUGH_LINE_THETA : Int := 1
def HOUGH_LINE_THRESHOLD : Int := 150
def HOUGH_LINE_SRN : Int := 0
def HOUGH_LINE_STN : Int := 0
/-- Lower end of the angle range, in degrees. -/
def HOUGH_LINE_MIN_THETA : Int := 0
/-- Upper end of the angle range, `CV_PI`, in degrees. -/
def HOUGH_LINE_MAX_THETA : Int := 180
def HOUGH_LINE_P_THRESHOLD : Int := 50
def HOUGH_LINE_P_MIN_LINE_LENGTH : Int := 50
def HOUGH_LINE_P_MAX_LINE_GAP : Int := 10
def HOUGH_LINE_DRAW_COLOR : Scalar := BGR_ORANGE
def HOUGH_LINE_DRAW_THICKNESS : Int := DRAW_LINE_THICKNESS
def MEDIAN_BLUR_KSIZE : Int := 5
def HOUGH_CIRCLE_DP : Int := 1
def HOUGH_CIRCLE_MIN_DISTANCE_DEVIDER : Int := 1
def HOUGH_CIRCLE_PARAM_1 : Int := 100
def HOUGH_CIRCLE_PARAM_2 : Int := 30
def HOUGH_CIRCLE_MIN_RADIUS : Int := 30
def HOUGH_CIRCLE_MAX_RADIUS : Int := 100
def HOUGH_CIRCLE_DRAW_DOT_COLOR : Scalar := BGR_RED
def HOUGH_CIRCLE_DRAW_CIRCLE_COLOR : Scalar := BGR_GREEN
def HOUGH_CIRCLE_DRAW_THICKNESS : Int := DRAW_LINE_THICKNESS
def WIN_TITLE : String := "Hough line/circle detection"
def SYSTEM_ERROR : Int := -1
def ESCAPE_KEY : Int := 27

/-! ## Console output -/

/-- One operand of a `cout <<` chain. -/
inductive Out
  | text (s : String)
  | char (c : Int)
  | endl
  deriving DecidableEq, Repr

/-- Line 83. -/
def noticeDisableAll : List Out :=
  [.text "\t>> disable all hough detection requested", .endl]

/-- Line 86. -/
def noticeLine : List Out :=
  [.text "\t>> enabling hough line detection", .endl]

/-- Line 89. -/
def noticeCircle : List Out :=
  [.text "\t>> enabling hough circle detection", .endl]

/-- Line 92. -/
def noticeBoth : List Out :=
  [.text "\t>> enabling both hough line and circle detection", .endl]

/-- Lines 98-99. -/
def noticeCurrentlyEnabled (winInput mode : Int) : List Out :=
  [.text "\t>> requested mode is currently enabled! (got [", .char winInput,
   .text "], current mode [", .char mode, .text "])", .endl]

/-- Line 254. -/
def noticeExiting : List Out :=
  [.text "\t>> Exiting!", .endl]

/-! ## `parseUserInput` -/

/-- Embedding of `void parseUserInput(char winInput, char &mode)`: returns the
value of `mode` on return and the tokens written to `cout`. -/
def parseUserInput (winInput mode : Int) : Int × List Out :=
  if mode ≠ winInput then
    if winInput = ch 'n' then (ch 'n', noticeDisableAll)
    else if winInput = ch 'l' then (winInput, noticeLine)
    else if winInput = ch 'c' then (winInput, noticeCircle)
    else if winInput = ch 'b' then (ch 'b', noticeBoth)
    else (mode, [])
  else (mode, noticeCurrentlyEnabled winInput mode)

/-! ## Vision library collaborators -/

structure Point where
  x : Int
  y : Int
  deriving DecidableEq, Repr

/-- Names of the vision-library functions the program calls. -/
inductive Call
  | cvtColor
  | Canny
  | HoughLines
  | HoughLinesP
  | line
  | medianBlur
  | HoughCircles
  | circle
  deriving DecidableEq, Repr

/-- The vision library. `Mat` is the image type, `Vec2f` a detected line in
polar form, `Vec3f` a detected circle. Enumerators fixed at every call site of
the source (`COLOR_BGR2GRAY`, `HOUGH_GRADIENT`, `LINE_AA`) are part of the
respective function. -/
structure Vision (Mat Vec2f Vec3f : Type) where
  /-- Models `cvtColor(src, dst, COLOR_BGR2GRAY)`. -/
  cvtColor : Mat → Mat
  /-- Models `Canny(image, edges, threshold1, threshold2, apertureSize)`. -/
  Canny : Mat → Int → Int → Int → Mat
  /-- Models `HoughLines(image, lines, rho, theta, threshold, srn, stn, min_theta, max_theta)`,
  angles in degrees. -/
  HoughLines : Mat → Int → Int → Int → Int → Int → Int → Int → List Vec2f
  /-- Lines 133-140: the two end points computed from `(rho, theta)` in floating point. -/
  endPoints : Vec2f → Point × Point
  /-- Models `HoughLinesP(image, lines, rho, theta, threshold, minLineLength, maxLineGap)`. -/
  HoughLinesP : Mat → Int → Int → Int → Int → Int → List (Int × Int × Int × Int)
  /-- Models `line(img, pt1, pt2, color, thickness, LINE_AA)`. -/
  line : Mat → Point → Point → Scalar → Int → Mat
  /-- Models `medianBlur(src, dst, ksize)`. -/
  medianBlur : Mat → Int → Mat
  /-- Models `Mat::rows`. -/
  rows : Mat → Int
  /-- Models `HoughCircles(image, circles, HOUGH_GRADIENT, dp, minDist, param1, param2, minRadius, maxRadius)`. -/
  HoughCircles : Mat → Int → Int → Int → Int → Int → Int → List Vec3f
  /-- Line 183: the conversion `Vec3i c = circles[i]`. -/
  toVec3i : Vec3f → Int × Int × Int
  /-- Models `circle(img, center, radius, color, thickness, LINE_AA)`. -/
  circle : Mat → Point → Int → Scalar → Int → Mat

section Vision

variable {Mat Vec2f Vec3f : Type}

/-- Embedding of `doHoughLine(Mat &frame, bool probabilistic)`: the frame on
return and the library calls made, in order. -/
def doHoughLine (V : Vision Mat Vec2f Vec3f) (frame : Mat) (probabilistic : Bool) :
    Mat × List Call :=
  let gray := V.cvtColor frame
  let dst := V.Canny gray CANNY_THRESHOLD_MAX CANNY_THRESHOLD_MIN CANNY_APERTURE_SIZE
  let log := [Call.cvtColor, Call.Canny]
  if !probabilistic then
    let lines := V.HoughLines dst HOUGH_LINE_RHO HOUGH_LINE_THETA HOUGH_LINE_THRESHOLD
      HOUGH_LINE_SRN HOUGH_LINE_STN HOUGH_LINE_MIN_THETA HOUGH_LINE_MAX_THETA
    lines.foldl
      (fun (s : Mat × List Call) l =>
        let pts := V.endPoints l
        (V.line s.1 pts.1 pts.2 HOUGH_LINE_DRAW_COLOR HOUGH_LINE_DRAW_THICKNESS,
         s.2 ++ [Call.line]))
      (frame, log ++ [Call.HoughLines])
  else
    let lines := V.HoughLinesP dst HOUGH_LINE_RHO HOUGH_LINE_THETA HOUGH_LINE_P_THRESHOLD
      HOUGH_LINE_P_MIN_LINE_LENGTH HOUGH_LINE_P_MAX_LINE_GAP
    lines.foldl
      (fun (s : Mat × List Call) l =>
        (V.line s.1 ⟨l.1, l.2.1⟩ ⟨l.2.2.1, l.2.2.2⟩ HOUGH_LINE_DRAW_COLOR
          HOUGH_LINE_DRAW_THICKNESS,
         s.2 ++ [Call.line]))
      (frame, log ++ [Call.HoughLinesP])

/-- Embedding of `doHoughCircle(Mat &frame)`. -/
def doHoughCircle (V : Vision Mat Vec2f Vec3f) (frame : Mat) : Mat × List Call :=
  let gray := V.cvtColor frame
  let gray := V.medianBlur gray MEDIAN_BLUR_KSIZE
  let circles := V.HoughCircles gray HOUGH_CIRCLE_DP
    (Int.tdiv (V.rows gray) HOUGH_CIRCLE_MIN_DISTANCE_DEVIDER) HOUGH_CIRCLE_PARAM_1
    HOUGH_CIRCLE_PARAM_2 HOUGH_CIRCLE_MIN_RADIUS HOUGH_CIRCLE_MAX_RADIUS
  circles.foldl
    (fun (s : Mat × List Call) ci =>
      let c := V.toVec3i ci
      let center : Point := ⟨c.1, c.2.1⟩
      let f1 := V.circle s.1 center RADIUS_OF_DOT HOUGH_CIRCLE_DRAW_DOT_COLOR
        HOUGH_CIRCLE_DRAW_THICKNESS
      let radius := c.2.2
      (V.circle f1 center radius HOUGH_CIRCLE_DRAW_CIRCLE_COLOR HOUGH_CIRCLE_DRAW_THICKNESS,
       s.2 ++ [Call.circle, Call.circle]))
    (frame, [Call.cvtColor, Call.medianBlur, Call.HoughCircles])

/-- The labels of the `switch (mode)` at line 228. -/
inductive Branch
  | caseN
  | caseL
  | caseC
  | caseB
  | default
  deriving DecidableEq, Repr

/-- Label selected by `switch (mode)`. -/
def switchBranch (mode : Int) : Branch :=
  if mode = ch 'n' then .caseN
  else if mode = ch 'l' then .caseL
  else if mode = ch 'c' then .caseC
  else if mode = ch 'b' then .caseB
  else .default

/-- Lines 228-248: the `switch (mode)` statement applied to `frame`. -/
def dispatch (V : Vision Mat Vec2f Vec3f) (mode : Int) (frame : Mat) : Mat × List Call :=
  match switchBranch mode with
  | .caseN => (frame, [])
  | .caseL => doHoughLine V frame false
  | .caseC => doHoughCircle V frame
  | .caseB =>
    let r1 := doHoughLine V frame false
    let r2 := doHoughCircle V r1.1
    (r2.1, r1.2 ++ r2.2)
  | .default => (frame, [])

/-! ## The main loop -/

/-- Camera properties set at lines 208-209. -/
inductive CapProp
  | CAP_PROP_FRAME_WIDTH
  | CAP_PROP_FRAME_HEIGHT
  deriving DecidableEq, Repr

/-- Observable actions of `mainLoop`, in program order. -/
inductive Event (Mat : Type)
  /-- Models `cam0.set(prop, value)`. -/
  | camSet (prop : CapProp) (value : Int)
  /-- Models `namedWindow(title)`. -/
  | namedWindow (title : String)
  /-- Models `waitKey(delay)` returning `ret`. -/
  | waitKey (delay : Int) (ret : Int)
  /-- Models the call `parseUserInput(winInput, mode)`, with `mode` on entry and on return. -/
  | parseUserInput (winInput : Int) (modeIn : Int) (modeOut : Int)
  /-- One token written to `cout`. -/
  | cout (o : Out)
  /-- Models `cam0.read(frame)` delivering `frame`. -/
  | read (frame : Mat)
  /-- A call into the vision library made by the `switch`. -/
  | vision (c : Call)
  /-- Models `imshow(title, frame)`. -/
  | imshow (title : String) (frame : Mat)
  /-- Models `destroyWindow(title)`. -/
  | destroyWindow (title : String)

/-- Lines 221-251: the rest of one loop iteration once the polled key is known
not to be `ESCAPE_KEY`, on the frame that `cam0.read` delivers. Returns the
events in program order and the value of `mode` afterwards. -/
def loopBody (V : Vision Mat Vec2f Vec3f) (frame : Mat) (winInput mode : Int) :
    List (Event Mat) × Int :=
  let p := parseUserInput winInput mode
  let d := dispatch V p.1 frame
  (Event.parseUserInput winInput mode p.1 :: p.2.map Event.cout
    ++ [Event.read frame]
    ++ d.2.map Event.vision
    ++ [Event.imshow WIN_TITLE d.1],
   p.1)

/-- Lines 214-252: the `while (1)` loop. `keys` are the values returned by the
successive `waitKey(10)` calls, `cam i` is the frame delivered by the `i`-th
`cam0.read`, `n` counts the reads made so far. Returns the events, the value of
`mode`, and whether the loop was left through `break` (when `keys` is
used up first, the loop is still waiting in `waitKey`). -/
def whileLoop (V : Vision Mat Vec2f Vec3f) (cam : Nat → Mat) :
    List Int → Nat → Int → List (Event Mat) × Int × Bool
  | [], _, mode => ([], mode, false)
  | k :: keys, n, mode =>
    let winInput := toChar k
    if winInput = ESCAPE_KEY then
      ([Event.waitKey 10 k], mode, true)
    else
      let b := loopBody V (cam n) winInput mode
      let r := whileLoop V cam keys (n + 1) b.2
      (Event.waitKey 10 k :: b.1 ++ r.1, r.2.1, r.2.2)

/-- How control stands at the end of the observed run. -/
inductive Status
  /-- Models `exit(code)`. -/
  | exited (code : Int)
  /-- The loop is blocked in `waitKey`, all supplied poll results consumed. -/
  | awaitingKey
  /-- Models `mainLoop` having returned. -/
  | returned
  deriving DecidableEq, Repr

/-- Result of running `mainLoop`. -/
structure Run (Mat : Type) where
  events : List (Event Mat)
  mode : Int
  status : Status

/-- Lines 208-212: camera resolution and window creation. -/
def setupEvents : List (Event Mat) :=
  [Event.camSet CapProp.CAP_PROP_FRAME_WIDTH 640,
   Event.camSet CapProp.CAP_PROP_FRAME_HEIGHT 480,
   Event.namedWindow WIN_TITLE]

/-- Lines 254-255: the exit notice and the release of the window. -/
def exitEvents : List (Event Mat) :=
  noticeExiting.map Event.cout ++ [Event.destroyWindow WIN_TITLE]

/-- Embedding of `mainLoop()`. `isOpened` is the result of `cam0.isOpened()`. -/
def mainLoop (V : Vision Mat Vec2f Vec3f) (isOpened : Bool) (cam : Nat → Mat)
    (keys : List Int) : Run Mat :=
  let mode := ch 'n'
  if !isOpened then
    { events := [], mode := mode, status := Status.exited SYSTEM_ERROR }
  else
    let r := whileLoop V cam keys 0 mode
    if r.2.2 then
      { events := setupEvents ++ r.1 ++ exitEvents, mode := r.2.1, status := Status.returned }
    else
      { events := setupEvents ++ r.1, mode := r.2.1, status := Status.awaitingKey }

/-! ## Observations on event lists -/

/-- Values returned by the `waitKey` polls. -/
def polls (es : List (Event Mat)) : List Int :=
  es.filterMap fun e => match e with
    | Event.waitKey _ k => some k
    | _ => none

/-- Characters passed to `parseUserInput`. -/
def parsed (es : List (Event Mat)) : List Int :=
  es.filterMap fun e => match e with
    | Event.parseUserInput k _ _ => some k
    | _ => none

/-- Value of `mode` after each call of `parseUserInput`. -/
def modesAfter (es : List (Event Mat)) : List Int :=
  es.filterMap fun e => match e with
    | Event.parseUserInput _ _ m => some m
    | _ => none

/-- Tokens written to `cout`. -/
def couts (es : List (Event Mat)) : List Out :=
  es.filterMap fun e => match e with
    | Event.cout o => some o
    | _ => none

/-- Frames acquired from the camera. -/
def reads (es : List (Event Mat)) : List Mat :=
  es.filterMap fun e => match e with
    | Event.read f => some f
    | _ => none

/-- Vision-library calls. -/
def visionCalls (es : List (Event Mat)) : List Call :=
  es.filterMap fun e => match e with
    | Event.vision c => some c
    | _ => none

/-- Frames handed to `imshow`. -/
def shown (es : List (Event Mat)) : List Mat :=
  es.filterMap fun e => match e with
    | Event.imshow _ f => some f
    | _ => none

/-- Titles of the windows released by `destroyWindow`. -/
def destroyed (es : List (Event Mat)) : List String :=
  es.filterMap fun e => match e with
    | Event.destroyWindow t => some t
    | _ => none

/-- A key poll or a console token: what the user sees of the dialogue. -/
inductive Dialogue
  | key (k : Int)
  | out (o : Out)
  deriving DecidableEq, Repr

/-- The interleaving of polled keys and console tokens. -/
def dialogue (es : List (Event Mat)) : List Dialogue :=
  es.filterMap fun e => match e with
    | Event.waitKey _ k => some (Dialogue.key k)
    | Event.cout o => some (Dialogue.out o)
    | _ => none

/-- State of the loop as the spec names it: running in some mode, or terminated. -/
inductive LoopState
  | running (mode : Int)
  | terminated
  deriving DecidableEq, Repr

/-- The mode at loop entry and after each completed iteration, closed by
`terminated` when `mainLoop` has returned. -/
def stateTrace (r : Run Mat) : List LoopState :=
  (ch 'n' :: modesAfter r.events).map LoopState.running
    ++ (if r.status = Status.returned then [LoopState.terminated] else [])

/-- The four mode characters. -/
def modes : List Int := [ch 'n', ch 'l', ch 'c', ch 'b']

/-- Mode after feeding the characters `inputs`, in order, through `parseUserInput`. -/
def feed (mode : Int) (inputs : List Int) : Int :=
  inputs.foldl (fun m k => (parseUserInput k m).1) mode

/-! ## The vision library as a collaborator with state

The same three functions once more, now against a library whose functions act
on a state of the library's own. The program only hands that state on from one
library call to the next: whatever a library records about its calls is
recorded by the library, not by the program. -/

namespace Lib

/-- A vision library with a state `σ`: every library function receives the state and
returns the new state with its result. `endPoints`, `rows` and `toVec3i` are not
library calls (arithmetic of lines 133-140, the field `Mat::rows`, the conversion of
line 183). -/
structure Library (σ Mat Vec2f Vec3f : Type) where
  /-- Models `cvtColor(src, dst, COLOR_BGR2GRAY)`. -/
  cvtColor : σ → Mat → σ × Mat
  /-- Models `Canny(image, edges, threshold1, threshold2, apertureSize)`. -/
  Canny : σ → Mat → Int → Int → Int → σ × Mat
  /-- Models `HoughLines(image, lines, rho, theta, threshold, srn, stn, min_theta, max_theta)`. -/
  HoughLines : σ → Mat → Int → Int → Int → Int → Int → Int → Int → σ × List Vec2f
  /-- Lines 133-140. -/
  endPoints : Vec2f → Point × Point
  /-- Models `HoughLinesP(image, lines, rho, theta, threshold, minLineLength, maxLineGap)`. -/
  HoughLinesP : σ → Mat → Int → Int → Int → Int → Int → σ × List (Int × Int × Int × Int)
  /-- Models `line(img, pt1, pt2, color, thickness, LINE_AA)`. -/
  line : σ → Mat → Point → Point → Scalar → Int → σ × Mat
  /-- Models `medianBlur(src, dst, ksize)`. -/
  medianBlur : σ → Mat → Int → σ × Mat
  /-- Models `Mat::rows`. -/
  rows : Mat → Int
  /-- Models `HoughCircles(image, circles, HOUGH_GRADIENT, dp, minDist, param1, param2, minRadius, maxRadius)`. -/
  HoughCircles : σ → Mat → Int → Int → Int → Int → Int → Int → σ × List Vec3f
  /-- Line 183. -/
  toVec3i : Vec3f → Int × Int × Int
  /-- Models `circle(img, center, radius, color, thickness, LINE_AA)`. -/
  circle : σ → Mat → Point → Int → Scalar → Int → σ × Mat

/-- The library `V` made to keep a record of its calls: each function appends its own
name to the record and computes what `V` computes. -/
def recording (V : Vision Mat Vec2f Vec3f) : Library (List Call) Mat Vec2f Vec3f where
  cvtColor := fun s img => (s ++ [Call.cvtColor], V.cvtColor img)
  Canny := fun s img t1 t2 ap => (s ++ [Call.Canny], V.Canny img t1 t2 ap)
  HoughLines := fun s img rho theta th srn stn lo hi =>
    (s ++ [Call.HoughLines], V.HoughLines img rho theta th srn stn lo hi)
  endPoints := V.endPoints
  HoughLinesP := fun s img rho theta th len gap =>
    (s ++ [Call.HoughLinesP], V.HoughLinesP img rho theta th len gap)
  line := fun s img p1 p2 c th => (s ++ [Call.line], V.line img p1 p2 c th)
  medianBlur := fun s img k => (s ++ [Call.medianBlur], V.medianBlur img k)
  rows := V.rows
  HoughCircles := fun s img dp d p1 p2 r1 r2 =>
    (s ++ [Call.HoughCircles], V.HoughCircles img dp d p1 p2 r1 r2)
  toVec3i := V.toVec3i
  circle := fun s img ctr r c th => (s ++ [Call.circle], V.circle img ctr r c th)

/-- The library `V` with no state at all. -/
def plain (V : Vision Mat Vec2f Vec3f) : Library Unit Mat Vec2f Vec3f where
  cvtColor := fun s img => (s, V.cvtColor img)
  Canny := fun s img t1 t2 ap => (s, V.Canny img t1 t2 ap)
  HoughLines := fun s img rho theta th srn stn lo hi =>
    (s, V.HoughLines img rho theta th srn stn lo hi)
  endPoints := V.endPoints
  HoughLinesP := fun s img rho theta th len gap => (s, V.HoughLinesP img rho theta th len gap)
  line := fun s img p1 p2 c th => (s, V.line img p1 p2 c th)
  medianBlur := fun s img k => (s, V.medianBlur img k)
  rows := V.rows
  HoughCircles := fun s img dp d p1 p2 r1 r2 => (s, V.HoughCircles img dp d p1 p2 r1 r2)
  toVec3i := V.toVec3i
  circle := fun s img ctr r c th => (s, V.circle img ctr r c th)

variable {σ : Type}

/-- Embedding of `doHoughLine(Mat &frame, bool probabilistic)` against a library with
state: the library state and the frame on return. -/
def doHoughLine (L : Library σ Mat Vec2f Vec3f) (s : σ) (frame : Mat) (probabilistic : Bool) :
    σ × Mat :=
  let gray := L.cvtColor s frame
  let dst := L.Canny gray.1 gray.2 CANNY_THRESHOLD_MAX CANNY_THRESHOLD_MIN CANNY_APERTURE_SIZE
  if !probabilistic then
    let lines := L.HoughLines dst.1 dst.2 HOUGH_LINE_RHO HOUGH_LINE_THETA HOUGH_LINE_THRESHOLD
      HOUGH_LINE_SRN HOUGH_LINE_STN HOUGH_LINE_MIN_THETA HOUGH_LINE_MAX_THETA
    lines.2.foldl
      (fun (st : σ × Mat) l =>
        let pts := L.endPoints l
        L.line st.1 st.2 pts.1 pts.2 HOUGH_LINE_DRAW_COLOR HOUGH_LINE_DRAW_THICKNESS)
      (lines.1, frame)
  else
    let lines := L.HoughLinesP dst.1 dst.2 HOUGH_LINE_RHO HOUGH_LINE_THETA
      HOUGH_LINE_P_THRESHOLD HOUGH_LINE_P_MIN_LINE_LENGTH HOUGH_LINE_P_MAX_LINE_GAP
    lines.2.foldl
      (fun (st : σ × Mat) l =>
        L.line st.1 st.2 ⟨l.1, l.2.1⟩ ⟨l.2.2.1, l.2.2.2⟩ HOUGH_LINE_DRAW_COLOR
          HOUGH_LINE_DRAW_THICKNESS)
      (lines.1, frame)

/-- Embedding of `doHoughCircle(Mat &frame)` against a library with state. -/
def doHoughCircle (L : Library σ Mat Vec2f Vec3f) (s : σ) (frame : Mat) : σ × Mat :=
  let gray := L.cvtColor s frame
  let gray := L.medianBlur gray.1 gray.2 MEDIAN_BLUR_KSIZE
  let circles := L.HoughCircles gray.1 gray.2 HOUGH_CIRCLE_DP
    (Int.tdiv (L.rows gray.2) HOUGH_CIRCLE_MIN_DISTANCE_DEVIDER) HOUGH_CIRCLE_PARAM_1
    HOUGH_CIRCLE_PARAM_2 HOUGH_CIRCLE_MIN_RADIUS HOUGH_CIRCLE_MAX_RADIUS
  circles.2.foldl
    (fun (st : σ × Mat) ci =>
      let c := L.toVec3i ci
      let center : Point := ⟨c.1, c.2.1⟩
      let dot := L.circle st.1 st.2 center RADIUS_OF_DOT HOUGH_CIRCLE_DRAW_DOT_COLOR
        HOUGH_CIRCLE_DRAW_THICKNESS
      let radius := c.2.2
      L.circle dot.1 dot.2 center radius HOUGH_CIRCLE_DRAW_CIRCLE_COLOR
        HOUGH_CIRCLE_DRAW_THICKNESS)
    (circles.1, frame)

/-- Lines 228-248: the `switch (mode)` statement against a library with state. -/
def dispatch (L : Library σ Mat Vec2f Vec3f) (mode : Int) (s : σ) (frame : Mat) : σ × Mat :=
  match switchBranch mode with
  | .caseN => (s, frame)
  | .caseL => doHoughLine L s frame false
  | .caseC => doHoughCircle L s frame
  | .caseB =>
    let r1 := doHoughLine L s frame false
    doHoughCircle L r1.1 r1.2
  | .default => (s, frame)

end Lib

/-! ## A concrete library, camera and key sequence for instances -/

/-- A vision library over images coded as natural numbers: detection finds
`image % 3` lines and `image % 2` circles, every drawing step changes the image. -/
def demoVision : Vision Nat Nat Nat where
  cvtColor := fun img => img + 1
  Canny := fun img _ _ _ => img + 2
  HoughLines := fun img _ _ _ _ _ _ _ => List.range (img % 3)
  endPoints := fun l => (⟨0, Int.ofNat l⟩, ⟨Int.ofNat l, 0⟩)
  HoughLinesP := fun img _ _ _ _ _ => List.replicate (img % 2) (0, 0, 1, 1)
  line := fun img _ _ _ _ => 10 * img + 1
  medianBlur := fun img _ => img + 3
  rows := fun _ => 480
  HoughCircles := fun img _ _ _ _ _ _ => List.range (img % 2)
  toVec3i := fun c => (Int.ofNat c, Int.ofNat c, 30)
  circle := fun img _ r _ _ => 10 * img + 2 + r.toNat

/-- A camera whose `i`-th frame is the image coded `i`. -/
def demoCam : Nat → Nat := fun i => i

end Vision

/-! ## Basic facts -/

section Lemmas

variable {Mat Vec2f Vec3f : Type}

theorem ch_n : ch 'n' = 110 := by decide
theorem ch_l : ch 'l' = 108 := by decide
theorem ch_c : ch 'c' = 99 := by decide
theorem ch_b : ch 'b' = 98 := by decide

/-- On the values `waitKey` can return without loss in a `char` or as a byte
(`-128 .. 255`), the stored `char` is the escape key exactly for the value 27. -/
theorem toChar_eq_ESCAPE_KEY_iff (k : Int) (hlo : -128 ≤ k) (hhi : k ≤ 255) :
    toChar k = ESCAPE_KEY ↔ k = 27 := by
  unfold toChar ESCAPE_KEY
  omega

theorem mem_modes (m : Int) : m ∈ modes ↔ m = 110 ∨ m = 108 ∨ m = 99 ∨ m = 98 := by
  simp [modes, ch_n, ch_l, ch_c, ch_b]

/-- A drawing loop whose step appends the calls `t` to the log only ever adds calls
from `t`, and keeps what was logged before. -/
theorem mem_foldl_log {α : Type} (g : Mat × List Call → α → Mat × List Call) (t : List Call)
    (hg : ∀ s x, (g s x).2 = s.2 ++ t) (c : Call) (xs : List α) (s : Mat × List Call) :
    (c ∈ (xs.foldl g s).2 → c ∈ s.2 ∨ c ∈ t) ∧ (c ∈ s.2 → c ∈ (xs.foldl g s).2) := by
  induction xs generalizing s with
  | nil => exact ⟨Or.inl, id⟩
  | cons x xs ih =>
    simp only [List.foldl_cons]
    constructor
    · intro h
      rcases (ih _).1 h with h1 | h1
      · rw [hg, List.mem_append] at h1
        exact h1
      · exact Or.inr h1
    · intro h
      exact (ih _).2 (by rw [hg]; exact List.mem_append_left _ h)

theorem mem_doHoughLine_false (V : Vision Mat Vec2f Vec3f) (frame : Mat) (c : Call) :
    (c ∈ (doHoughLine V frame false).2 →
      c = Call.cvtColor ∨ c = Call.Canny ∨ c = Call.HoughLines ∨ c = Call.line)
    ∧ (c = Call.cvtColor ∨ c = Call.Canny ∨ c = Call.HoughLines →
      c ∈ (doHoughLine V frame false).2) := by
  simp only [doHoughLine, Bool.not_false, if_true]
  constructor
  · intro h
    have := (mem_foldl_log _ [Call.line] (fun _ _ => rfl) c _ _).1 h
    simpa [or_assoc] using this
  · intro h
    apply (mem_foldl_log _ [Call.line] (fun _ _ => rfl) c _ _).2
    simpa [or_assoc] using h

theorem mem_doHoughCircle (V : Vision Mat Vec2f Vec3f) (frame : Mat) (c : Call) :
    (c ∈ (doHoughCircle V frame).2 →
      c = Call.cvtColor ∨ c = Call.medianBlur ∨ c = Call.HoughCircles ∨ c = Call.circle)
    ∧ (c = Call.cvtColor ∨ c = Call.medianBlur ∨ c = Call.HoughCircles →
      c ∈ (doHoughCircle V frame).2) := by
  simp only [doHoughCircle]
  constructor
  · intro h
    have := (mem_foldl_log _ [Call.circle, Call.circle] (fun _ _ => rfl) c _ _).1 h
    simpa [or_assoc] using this
  · intro h
    apply (mem_foldl_log _ [Call.circle, Call.circle] (fun _ _ => rfl) c _ _).2
    simpa [or_assoc] using h

theorem switchBranch_cases (m : Int) :
    (m = ch 'n' ∧ switchBranch m = Branch.caseN)
    ∨ (m = ch 'l' ∧ switchBranch m = Branch.caseL)
    ∨ (m = ch 'c' ∧ switchBranch m = Branch.caseC)
    ∨ (m = ch 'b' ∧ switchBranch m = Branch.caseB)
    ∨ (m ∉ modes ∧ switchBranch m = Branch.default) := by
  unfold switchBranch
  by_cases h1 : m = ch 'n'
  · subst h1; simp
  by_cases h2 : m = ch 'l'
  · subst h2; simp [ch_n, ch_l]
  by_cases h3 : m = ch 'c'
  · subst h3; simp [ch_n, ch_l, ch_c]
  by_cases h4 : m = ch 'b'
  · subst h4; simp [ch_n, ch_l, ch_c, ch_b]
  · simp [h1, h2, h3, h4, modes]

/-- Calls made by the `switch`, by mode. -/
theorem mem_dispatch (V : Vision Mat Vec2f Vec3f) (m : Int) (frame : Mat) :
    (Call.Canny ∈ (dispatch V m frame).2 ↔ m = ch 'l' ∨ m = ch 'b')
    ∧ (Call.HoughLines ∈ (dispatch V m frame).2 ↔ m = ch 'l' ∨ m = ch 'b')
    ∧ (Call.medianBlur ∈ (dispatch V m frame).2 ↔ m = ch 'c' ∨ m = ch 'b')
    ∧ (Call.HoughCircles ∈ (dispatch V m frame).2 ↔ m = ch 'c' ∨ m = ch 'b')
    ∧ Call.HoughLinesP ∉ (dispatch V m frame).2 := by
  have hL := fun f c => mem_doHoughLine_false V f c
  have hC := fun f c => mem_doHoughCircle V f c
  rcases switchBranch_cases m with ⟨rfl, hb⟩ | ⟨rfl, hb⟩ | ⟨rfl, hb⟩ | ⟨rfl, hb⟩ | ⟨hm, hb⟩
  · simp only [dispatch, hb]
    simp [ch_n, ch_l, ch_c, ch_b]
  · simp only [dispatch, hb]
    refine ⟨?_, ?_, ?_, ?_, ?_⟩
    · simpa using (hL frame _).2 (by simp)
    · simpa using (hL frame _).2 (by simp)
    · have := (hL frame Call.medianBlur).1
      simpa [ch_l, ch_c, ch_b] using this
    · have := (hL frame Call.HoughCircles).1
      simpa [ch_l, ch_c, ch_b] using this
    · have := (hL frame Call.HoughLinesP).1
      simpa using this
  · simp only [dispatch, hb]
    refine ⟨?_, ?_, ?_, ?_, ?_⟩
    · have := (hC frame Call.Canny).1
      simpa [ch_l, ch_c, ch_b] using this
    · have := (hC frame Call.HoughLines).1
      simpa [ch_l, ch_c, ch_b] using this
    · simpa using (hC frame _).2 (by simp)
    · simpa using (hC frame _).2 (by simp)
    · have := (hC frame Call.HoughLinesP).1
      simpa using this
  · simp only [dispatch, hb, List.mem_append]
    refine ⟨?_, ?_, ?_, ?_, ?_⟩
    · simpa using Or.inl ((hL frame _).2 (by simp))
    · simpa using Or.inl ((hL frame _).2 (by simp))
    · simpa using Or.inr ((hC _ _).2 (by simp))
    · simpa using Or.inr ((hC _ _).2 (by simp))
    · have h1 := (hL frame Call.HoughLinesP).1
      have h2 := (hC (doHoughLine V frame false).1 Call.HoughLinesP).1
      simp at h1 h2
      simp [h1, h2]
  · have hn : m ≠ ch 'n' ∧ m ≠ ch 'l' ∧ m ≠ ch 'c' ∧ m ≠ ch 'b' := by
      simpa [modes] using hm
    simp only [dispatch, hb]
    simp [hn.1, hn.2.1, hn.2.2.1, hn.2.2.2]

/-! ### Observations on one loop iteration -/

theorem filterMap_map_none {α β γ : Type} (p : β → Option γ) (c : α → β)
    (h : ∀ a, p (c a) = none) (l : List α) : (l.map c).filterMap p = [] := by
  induction l with
  | nil => rfl
  | cons a l ih => simp [List.filterMap_cons, h, ih]

theorem filterMap_map_some {α β γ : Type} (p : β → Option γ) (c : α → β) (d : α → γ)
    (h : ∀ a, p (c a) = some (d a)) (l : List α) : (l.map c).filterMap p = l.map d := by
  induction l with
  | nil => rfl
  | cons a l ih => simp [List.filterMap_cons, h, ih]

theorem polls_loopBody (V : Vision Mat Vec2f Vec3f) (f : Mat) (k m : Int) :
    polls (loopBody V f k m).1 = [] := by
  simp [loopBody, polls, List.filterMap_append, -List.filterMap_map, filterMap_map_none,
    filterMap_map_some _ _ id, filterMap_map_some _ _ Dialogue.out]

theorem parsed_loopBody (V : Vision Mat Vec2f Vec3f) (f : Mat) (k m : Int) :
    parsed (loopBody V f k m).1 = [k] := by
  simp [loopBody, parsed, List.filterMap_append, -List.filterMap_map, filterMap_map_none,
    filterMap_map_some _ _ id, filterMap_map_some _ _ Dialogue.out]

theorem modesAfter_loopBody (V : Vision Mat Vec2f Vec3f) (f : Mat) (k m : Int) :
    modesAfter (loopBody V f k m).1 = [(parseUserInput k m).1] := by
  simp [loopBody, modesAfter, List.filterMap_append, -List.filterMap_map, filterMap_map_none,
    filterMap_map_some _ _ id, filterMap_map_some _ _ Dialogue.out]

theorem couts_loopBody (V : Vision Mat Vec2f Vec3f) (f : Mat) (k m : Int) :
    couts (loopBody V f k m).1 = (parseUserInput k m).2 := by
  simp [loopBody, couts, List.filterMap_append, -List.filterMap_map, filterMap_map_none,
    filterMap_map_some _ _ id, filterMap_map_some _ _ Dialogue.out]

theorem reads_loopBody (V : Vision Mat Vec2f Vec3f) (f : Mat) (k m : Int) :
    reads (loopBody V f k m).1 = [f] := by
  simp [loopBody, reads, List.filterMap_append, -List.filterMap_map, filterMap_map_none,
    filterMap_map_some _ _ id, filterMap_map_some _ _ Dialogue.out]

theorem visionCalls_loopBody (V : Vision Mat Vec2f Vec3f) (f : Mat) (k m : Int) :
    visionCalls (loopBody V f k m).1 = (dispatch V (parseUserInput k m).1 f).2 := by
  simp [loopBody, visionCalls, List.filterMap_append, -List.filterMap_map, filterMap_map_none,
    filterMap_map_some _ _ id, filterMap_map_some _ _ Dialogue.out]

theorem shown_loopBody (V : Vision Mat Vec2f Vec3f) (f : Mat) (k m : Int) :
    shown (loopBody V f k m).1 = [(dispatch V (parseUserInput k m).1 f).1] := by
  simp [loopBody, shown, List.filterMap_append, -List.filterMap_map, filterMap_map_none,
    filterMap_map_some _ _ id, filterMap_map_some _ _ Dialogue.out]

theorem destroyed_loopBody (V : Vision Mat Vec2f Vec3f) (f : Mat) (k m : Int) :
    destroyed (loopBody V f k m).1 = [] := by
  simp [loopBody, destroyed, List.filterMap_append, -List.filterMap_map, filterMap_map_none,
    filterMap_map_some _ _ id, filterMap_map_some _ _ Dialogue.out]

theorem dialogue_loopBody (V : Vision Mat Vec2f Vec3f) (f : Mat) (k m : Int) :
    dialogue (loopBody V f k m).1 = (parseUserInput k m).2.map Dialogue.out := by
  simp [loopBody, dialogue, List.filterMap_append, -List.filterMap_map, filterMap_map_none,
    filterMap_map_some _ _ id, filterMap_map_some _ _ Dialogue.out]

/-! ### Observations distribute over concatenation -/

theorem polls_append (a b : List (Event Mat)) : polls (a ++ b) = polls a ++ polls b := by
  simp [polls]

theorem parsed_append (a b : List (Event Mat)) : parsed (a ++ b) = parsed a ++ parsed b := by
  simp [parsed]

theorem modesAfter_append (a b : List (Event Mat)) : modesAfter (a ++ b) = modesAfter a ++ modesAfter b := by
  simp [modesAfter]

theorem couts_append (a b : List (Event Mat)) : couts (a ++ b) = couts a ++ couts b := by
  simp [couts]

theorem reads_append (a b : List (Event Mat)) : reads (a ++ b) = reads a ++ reads b := by
  simp [reads]

theorem visionCalls_append (a b : List (Event Mat)) : visionCalls (a ++ b) = visionCalls a ++ visionCalls b := by
  simp [visionCalls]

theorem shown_append (a b : List (Event Mat)) : shown (a ++ b) = shown a ++ shown b := by
  simp [shown]

theorem destroyed_append (a b : List (Event Mat)) : destroyed (a ++ b) = destroyed a ++ destroyed b := by
  simp [destroyed]

theorem dialogue_append (a b : List (Event Mat)) : dialogue (a ++ b) = dialogue a ++ dialogue b := by
  simp [dialogue]

/-! ### The `while` loop -/

theorem exiting_not_mem_parseUserInput (k m : Int) :
    Out.text "\t>> Exiting!" ∉ (parseUserInput k m).2 := by
  unfold parseUserInput
  split_ifs <;>
    simp [noticeDisableAll, noticeLine, noticeCircle, noticeBoth, noticeCurrentlyEnabled]

theorem whileLoop_escape (V : Vision Mat Vec2f Vec3f) (cam : Nat → Mat) (k : Int)
    (keys : List Int) (n : Nat) (m : Int) (h : toChar k = ESCAPE_KEY) :
    whileLoop V cam (k :: keys) n m = ([Event.waitKey 10 k], m, true) := by
  simp [whileLoop, h]

theorem whileLoop_step (V : Vision Mat Vec2f Vec3f) (cam : Nat → Mat) (k : Int)
    (keys : List Int) (n : Nat) (m : Int) (h : toChar k ≠ ESCAPE_KEY) :
    whileLoop V cam (k :: keys) n m
      = ([Event.waitKey 10 k] ++ (loopBody V (cam n) (toChar k) m).1
          ++ (whileLoop V cam keys (n + 1) (parseUserInput (toChar k) m).1).1,
         (whileLoop V cam keys (n + 1) (parseUserInput (toChar k) m).1).2.1,
         (whileLoop V cam keys (n + 1) (parseUserInput (toChar k) m).1).2.2) := by
  simp [whileLoop, h, loopBody]

/-- The loop on a key sequence whose first escape is `k`: everything before `k` is
processed as if `k` were not there, then the poll of `k` leaves the loop. -/
theorem whileLoop_append_escape (V : Vision Mat Vec2f Vec3f) (cam : Nat → Mat)
    (pre : List Int) (k : Int) (rest : List Int) (n : Nat) (m : Int)
    (hpre : ∀ x ∈ pre, toChar x ≠ ESCAPE_KEY) (hk : toChar k = ESCAPE_KEY) :
    whileLoop V cam (pre ++ k :: rest) n m
      = ((whileLoop V cam pre n m).1 ++ [Event.waitKey 10 k], (whileLoop V cam pre n m).2.1, true) := by
  induction pre generalizing n m with
  | nil => simp [whileLoop, hk]
  | cons x xs ih =>
    have hx : toChar x ≠ ESCAPE_KEY := hpre x (by simp)
    have hxs : ∀ y ∈ xs, toChar y ≠ ESCAPE_KEY := fun y hy => hpre y (by simp [hy])
    rw [List.cons_append, whileLoop_step V cam x _ n m hx, whileLoop_step V cam x xs n m hx,
      ih _ _ hxs]
    simp

/-- The loop on a key sequence without escape. -/
theorem whileLoop_running (V : Vision Mat Vec2f Vec3f) (cam : Nat → Mat)
    (pre : List Int) (n : Nat) (m : Int) (hpre : ∀ x ∈ pre, toChar x ≠ ESCAPE_KEY) :
    (whileLoop V cam pre n m).2.2 = false
    ∧ (whileLoop V cam pre n m).2.1 = feed m (pre.map toChar)
    ∧ polls (whileLoop V cam pre n m).1 = pre
    ∧ parsed (whileLoop V cam pre n m).1 = pre.map toChar
    ∧ reads (whileLoop V cam pre n m).1 = (List.range pre.length).map (fun i => cam (n + i))
    ∧ shown (whileLoop V cam pre n m).1
        = List.zipWith (fun mode frame => (dispatch V mode frame).1)
            (modesAfter (whileLoop V cam pre n m).1) (reads (whileLoop V cam pre n m).1)
    ∧ (modesAfter (whileLoop V cam pre n m).1).length = pre.length
    ∧ destroyed (whileLoop V cam pre n m).1 = []
    ∧ Out.text "\t>> Exiting!" ∉ couts (whileLoop V cam pre n m).1 := by
  induction pre generalizing n m with
  | nil => simp [whileLoop, feed, polls, parsed, reads, shown, modesAfter, destroyed, couts]
  | cons x xs ih =>
    have hx : toChar x ≠ ESCAPE_KEY := hpre x (by simp)
    have hxs : ∀ y ∈ xs, toChar y ≠ ESCAPE_KEY := fun y hy => hpre y (by simp [hy])
    obtain ⟨h1, h2, h3, h4, h5, h6, h7, h8, h9⟩ := ih (n + 1) (parseUserInput (toChar x) m).1 hxs
    rw [whileLoop_step V cam x xs n m hx]
    simp only [polls_append, parsed_append, reads_append, shown_append, modesAfter_append,
      destroyed_append, couts_append, polls_loopBody, parsed_loopBody, reads_loopBody,
      shown_loopBody, modesAfter_loopBody, destroyed_loopBody, couts_loopBody]
    refine ⟨h1, ?_, ?_, ?_, ?_, ?_, ?_, ?_, ?_⟩
    · rw [h2]; simp [feed]
    · rw [h3]; simp [polls]
    · rw [h4]; simp [parsed]
    · rw [h5, List.length_cons, List.range_succ_eq_map]
      simp [reads, Function.comp_def, Nat.add_assoc, Nat.add_comm 1]
    · rw [h6]; simp [shown, modesAfter, reads]
    · rw [List.length_append, h7]; simp [modesAfter, Nat.add_comm]
    · rw [h8]; simp [destroyed]
    · simp only [List.mem_append, not_or]
      exact ⟨⟨by simp [couts], exiting_not_mem_parseUserInput _ _⟩, h9⟩

theorem parseUserInput_mem_modes (k m : Int) (hm : m ∈ modes) :
    (parseUserInput k m).1 ∈ modes := by
  unfold parseUserInput
  split_ifs with h1 h2 h3 h4 h5 <;> first | exact hm | simp [modes, *]

theorem feed_mem_modes (inputs : List Int) (m : Int) (hm : m ∈ modes) :
    feed m inputs ∈ modes := by
  induction inputs generalizing m with
  | nil => exact hm
  | cons k ks ih => exact ih _ (parseUserInput_mem_modes k m hm)

theorem switchBranch_ne_default (m : Int) (hm : m ∈ modes) :
    switchBranch m ≠ Branch.default := by
  rcases switchBranch_cases m with ⟨_, h⟩ | ⟨_, h⟩ | ⟨_, h⟩ | ⟨_, h⟩ | ⟨h, _⟩
  · simp [h]
  · simp [h]
  · simp [h]
  · simp [h]
  · exact absurd hm h

theorem whileLoop_modes (V : Vision Mat Vec2f Vec3f) (cam : Nat → Mat) (keys : List Int)
    (n : Nat) (m : Int) (hm : m ∈ modes) :
    (whileLoop V cam keys n m).2.1 ∈ modes
    ∧ ∀ x ∈ modesAfter (whileLoop V cam keys n m).1, x ∈ modes := by
  induction keys generalizing n m with
  | nil => simp [whileLoop, modesAfter, hm]
  | cons k ks ih =>
    by_cases hk : toChar k = ESCAPE_KEY
    · rw [whileLoop_escape V cam k ks n m hk]
      simp [modesAfter, hm]
    · rw [whileLoop_step V cam k ks n m hk]
      have hp := parseUserInput_mem_modes (toChar k) m hm
      obtain ⟨h1, h2⟩ := ih (n + 1) _ hp
      refine ⟨h1, ?_⟩
      simp only [modesAfter_append, modesAfter_loopBody, List.mem_append]
      rintro x ((hx | hx) | hx)
      · simp [modesAfter] at hx
      · simp at hx; rw [hx]; exact hp
      · exact h2 x hx

theorem whileLoop_no_HoughLinesP (V : Vision Mat Vec2f Vec3f) (cam : Nat → Mat)
    (keys : List Int) (n : Nat) (m : Int) :
    Call.HoughLinesP ∉ visionCalls (whileLoop V cam keys n m).1 := by
  induction keys generalizing n m with
  | nil => simp [whileLoop, visionCalls]
  | cons k ks ih =>
    by_cases hk : toChar k = ESCAPE_KEY
    · rw [whileLoop_escape V cam k ks n m hk]
      simp [visionCalls]
    · rw [whileLoop_step V cam k ks n m hk]
      simp only [visionCalls_append, visionCalls_loopBody, List.mem_append, not_or]
      exact ⟨⟨by simp [visionCalls], (mem_dispatch V _ _).2.2.2.2⟩, ih _ _⟩

/-- One more key that is not the escape key adds exactly one iteration of the loop body. -/
theorem whileLoop_snoc (V : Vision Mat Vec2f Vec3f) (cam : Nat → Mat)
    (pre : List Int) (k : Int) (n : Nat) (m : Int)
    (hpre : ∀ x ∈ pre, toChar x ≠ ESCAPE_KEY) (hk : toChar k ≠ ESCAPE_KEY) :
    whileLoop V cam (pre ++ [k]) n m
      = ((whileLoop V cam pre n m).1 ++ Event.waitKey 10 k ::
          (loopBody V (cam (n + pre.length)) (toChar k) (whileLoop V cam pre n m).2.1).1,
         (loopBody V (cam (n + pre.length)) (toChar k) (whileLoop V cam pre n m).2.1).2,
         false) := by
  induction pre generalizing n m with
  | nil => simp [whileLoop, hk, loopBody]
  | cons x xs ih =>
    have hx : toChar x ≠ ESCAPE_KEY := hpre x (by simp)
    have hxs : ∀ y ∈ xs, toChar y ≠ ESCAPE_KEY := fun y hy => hpre y (by simp [hy])
    rw [List.cons_append, whileLoop_step V cam x _ n m hx, whileLoop_step V cam x xs n m hx,
      ih _ _ hxs]
    simp [Nat.add_assoc, Nat.add_comm 1]

/-! ### `mainLoop` in terms of the `while` loop -/

theorem mainLoop_returned (V : Vision Mat Vec2f Vec3f) (cam : Nat → Mat) (keys : List Int)
    (h : (whileLoop V cam keys 0 (ch 'n')).2.2 = true) :
    mainLoop V true cam keys
      = { events := setupEvents ++ (whileLoop V cam keys 0 (ch 'n')).1 ++ exitEvents,
          mode := (whileLoop V cam keys 0 (ch 'n')).2.1, status := Status.returned } := by
  simp [mainLoop, h]

theorem mainLoop_awaiting (V : Vision Mat Vec2f Vec3f) (cam : Nat → Mat) (keys : List Int)
    (h : (whileLoop V cam keys 0 (ch 'n')).2.2 = false) :
    mainLoop V true cam keys
      = { events := setupEvents ++ (whileLoop V cam keys 0 (ch 'n')).1,
          mode := (whileLoop V cam keys 0 (ch 'n')).2.1, status := Status.awaitingKey } := by
  simp [mainLoop, h]

theorem mainLoop_mode (V : Vision Mat Vec2f Vec3f) (isOpened : Bool) (cam : Nat → Mat)
    (keys : List Int) :
    (mainLoop V isOpened cam keys).mode
      = if isOpened then (whileLoop V cam keys 0 (ch 'n')).2.1 else ch 'n' := by
  cases isOpened
  · rfl
  · cases h : (whileLoop V cam keys 0 (ch 'n')).2.2
    · rw [mainLoop_awaiting V cam keys h]; rfl
    · rw [mainLoop_returned V cam keys h]; rfl

theorem modesAfter_mainLoop (V : Vision Mat Vec2f Vec3f) (isOpened : Bool) (cam : Nat → Mat)
    (keys : List Int) :
    modesAfter (mainLoop V isOpened cam keys).events
      = if isOpened then modesAfter (whileLoop V cam keys 0 (ch 'n')).1 else [] := by
  cases isOpened
  · rfl
  · cases h : (whileLoop V cam keys 0 (ch 'n')).2.2
    · rw [mainLoop_awaiting V cam keys h]
      simp only [modesAfter_append]
      simp [modesAfter, setupEvents]
    · rw [mainLoop_returned V cam keys h]
      simp only [modesAfter_append]
      simp [modesAfter, setupEvents, exitEvents, noticeExiting]

theorem visionCalls_mainLoop (V : Vision Mat Vec2f Vec3f) (isOpened : Bool) (cam : Nat → Mat)
    (keys : List Int) :
    visionCalls (mainLoop V isOpened cam keys).events
      = if isOpened then visionCalls (whileLoop V cam keys 0 (ch 'n')).1 else [] := by
  cases isOpened
  · rfl
  · cases h : (whileLoop V cam keys 0 (ch 'n')).2.2
    · rw [mainLoop_awaiting V cam keys h]
      simp only [visionCalls_append]
      simp [visionCalls, setupEvents]
    · rw [mainLoop_returned V cam keys h]
      simp only [visionCalls_append]
      simp [visionCalls, setupEvents, exitEvents, noticeExiting]

/-! ### The recording library against the call log -/

/-- A drawing loop run on a record agrees with the same loop run on a call log, when the
two steps agree. -/
theorem foldl_recording {α : Type} (g' : List Call × Mat → α → List Call × Mat)
    (g : Mat × List Call → α → Mat × List Call)
    (hg : ∀ s log f x, g' (s ++ log, f) x = (s ++ (g (f, log) x).2, (g (f, log) x).1))
    (xs : List α) (s log : List Call) (f : Mat) :
    xs.foldl g' (s ++ log, f) = (s ++ (xs.foldl g (f, log)).2, (xs.foldl g (f, log)).1) := by
  induction xs generalizing log f with
  | nil => rfl
  | cons x xs ih =>
    simp only [List.foldl_cons]
    rw [hg, ih]

/-- A drawing loop run without state computes the frame of the loop run on a call log. -/
theorem foldl_plain {α : Type} (g' : Unit × Mat → α → Unit × Mat)
    (g : Mat × List Call → α → Mat × List Call)
    (hg : ∀ log f x, g' ((), f) x = ((), (g (f, log) x).1))
    (xs : List α) (log : List Call) (f : Mat) :
    xs.foldl g' ((), f) = ((), (xs.foldl g (f, log)).1) := by
  induction xs generalizing log f with
  | nil => rfl
  | cons x xs ih =>
    simp only [List.foldl_cons]
    rw [hg log, ih (g (f, log) x).2]

theorem doHoughLine_recording (V : Vision Mat Vec2f Vec3f) (s : List Call) (frame : Mat)
    (p : Bool) :
    Lib.doHoughLine (Lib.recording V) s frame p
      = (s ++ (doHoughLine V frame p).2, (doHoughLine V frame p).1) := by
  cases p
  · simp only [Lib.doHoughLine, doHoughLine, Lib.recording, Bool.not_false, if_true,
      List.append_assoc]
    exact foldl_recording _ _ (fun _ _ _ _ => by simp) _ s _ frame
  · simp only [Lib.doHoughLine, doHoughLine, Lib.recording, Bool.not_true, Bool.false_eq_true,
      if_false, List.append_assoc]
    exact foldl_recording _ _ (fun _ _ _ _ => by simp) _ s _ frame

theorem doHoughCircle_recording (V : Vision Mat Vec2f Vec3f) (s : List Call) (frame : Mat) :
    Lib.doHoughCircle (Lib.recording V) s frame
      = (s ++ (doHoughCircle V frame).2, (doHoughCircle V frame).1) := by
  simp only [Lib.doHoughCircle, doHoughCircle, Lib.recording, List.append_assoc]
  exact foldl_recording _ _ (fun _ _ _ _ => by simp) _ s _ frame

theorem dispatch_recording (V : Vision Mat Vec2f Vec3f) (m : Int) (s : List Call) (frame : Mat) :
    Lib.dispatch (Lib.recording V) m s frame
      = (s ++ (dispatch V m frame).2, (dispatch V m frame).1) := by
  unfold Lib.dispatch dispatch
  cases switchBranch m
  · simp
  · exact doHoughLine_recording V s frame false
  · exact doHoughCircle_recording V s frame
  · simp only [doHoughLine_recording, doHoughCircle_recording, List.append_assoc]
  · simp

theorem doHoughLine_plain (V : Vision Mat Vec2f Vec3f) (frame : Mat) (p : Bool) :
    Lib.doHoughLine (Lib.plain V) () frame p = ((), (doHoughLine V frame p).1) := by
  cases p
  · simp only [Lib.doHoughLine, doHoughLine, Lib.plain, Bool.not_false, if_true]
    exact foldl_plain _ _ (fun _ _ _ => rfl) _ _ frame
  · simp only [Lib.doHoughLine, doHoughLine, Lib.plain, Bool.not_true, Bool.false_eq_true,
      if_false]
    exact foldl_plain _ _ (fun _ _ _ => rfl) _ _ frame

theorem doHoughCircle_plain (V : Vision Mat Vec2f Vec3f) (frame : Mat) :
    Lib.doHoughCircle (Lib.plain V) () frame = ((), (doHoughCircle V frame).1) := by
  simp only [Lib.doHoughCircle, doHoughCircle, Lib.plain]
  exact foldl_plain _ _ (fun _ _ _ => rfl) _ _ frame

theorem dispatch_plain (V : Vision Mat Vec2f Vec3f) (m : Int) (frame : Mat) :
    Lib.dispatch (Lib.plain V) m () frame = ((), (dispatch V m frame).1) := by
  unfold Lib.dispatch dispatch
  cases switchBranch m
  · rfl
  · exact doHoughLine_plain V frame false
  · exact doHoughCircle_plain V frame
  · simp only [doHoughLine_plain, doHoughCircle_plain]
  · rfl

/-! ### Independence of the probabilistic transform -/

theorem dispatch_HoughLinesP (V : Vision Mat Vec2f Vec3f)
    (hp : Mat → Int → Int → Int → Int → Int → List (Int × Int × Int × Int))
    (m : Int) (frame : Mat) :
    dispatch { V with HoughLinesP := hp } m frame = dispatch V m frame := by
  unfold dispatch
  cases switchBranch m <;> simp only [doHoughLine, doHoughCircle, Bool.not_false, if_true]

theorem whileLoop_HoughLinesP (V : Vision Mat Vec2f Vec3f)
    (hp : Mat → Int → Int → Int → Int → Int → List (Int × Int × Int × Int))
    (cam : Nat → Mat) (keys : List Int) (n : Nat) (m : Int) :
    whileLoop { V with HoughLinesP := hp } cam keys n m = whileLoop V cam keys n m := by
  induction keys generalizing n m with
  | nil => rfl
  | cons k ks ih =>
    simp only [whileLoop, loopBody, dispatch_HoughLinesP, ih]

theorem mainLoop_HoughLinesP (V : Vision Mat Vec2f Vec3f)
    (hp : Mat → Int → Int → Int → Int → Int → List (Int × Int × Int × Int))
    (isOpened : Bool) (cam : Nat → Mat) (keys : List Int) :
    mainLoop { V with HoughLinesP := hp } isOpened cam keys = mainLoop V isOpened cam keys := by
  simp only [mainLoop, whileLoop_HoughLinesP]

end Lemmas

/-! ## The mode transition function -/

/-- C1: for current mode `M` and input `k`, both among `n`, `l`, `c`, `b` and different,
`parseUserInput(k, M)` sets the mode to `k` and writes exactly one notice (one
`endl`-terminated line): the activation notice of `k`, which is never the
"currently enabled" notice. -/
theorem parseUserInput_activates (M k : Int) (hM : M ∈ modes) (hk : k ∈ modes) (hne : k ≠ M) :
    (parseUserInput k M).1 = k
    ∧ (k = ch 'n' → (parseUserInput k M).2 = noticeDisableAll)
    ∧ (k = ch 'l' → (parseUserInput k M).2 = noticeLine)
    ∧ (k = ch 'c' → (parseUserInput k M).2 = noticeCircle)
    ∧ (k = ch 'b' → (parseUserInput k M).2 = noticeBoth)
    ∧ (parseUserInput k M).2.count Out.endl = 1
    ∧ ∀ g c, (parseUserInput k M).2 ≠ noticeCurrentlyEnabled g c := by
  rw [mem_modes] at hM hk
  rcases hk with rfl | rfl | rfl | rfl <;> rcases hM with rfl | rfl | rfl | rfl <;>
    first
    | exact absurd rfl hne
    | simp [parseUserInput, ch_n, ch_l, ch_c, ch_b, noticeDisableAll, noticeLine,
        noticeCircle, noticeBoth, noticeCurrentlyEnabled]

/-- Instance of C1: in mode `n`, the key `l` switches to `l` with the line notice. -/
theorem parseUserInput_activates_witness :
    ch 'n' ∈ modes ∧ ch 'l' ∈ modes ∧ ch 'l' ≠ ch 'n'
    ∧ (parseUserInput (ch 'l') (ch 'n')).1 = ch 'l'
    ∧ (parseUserInput (ch 'l') (ch 'n')).2 = noticeLine :=
  ⟨by decide, by decide, by decide,
    (parseUserInput_activates (ch 'n') (ch 'l') (by decide) (by decide) (by decide)).1,
    (parseUserInput_activates (ch 'n') (ch 'l') (by decide) (by decide) (by decide)).2.2.1 rfl⟩

/-- C2: for current mode `M` among `n`, `l`, `c`, `b` and any input character `k` that is
none of them, `parseUserInput(k, M)` leaves the mode `M` and writes nothing; the value
`-1` that `waitKey` returns on timeout is such a character. -/
theorem parseUserInput_ignores (M k : Int) (hM : M ∈ modes) (hk : k ∉ modes) :
    parseUserInput k M = (M, [])
    ∧ toChar (-1) ∉ modes
    ∧ parseUserInput (toChar (-1)) M = (M, []) := by
  have key : ∀ j : Int, j ∉ modes → parseUserInput j M = (M, []) := by
    intro j hj
    have hj4 : j ≠ ch 'n' ∧ j ≠ ch 'l' ∧ j ≠ ch 'c' ∧ j ≠ ch 'b' := by
      simpa [modes] using hj
    have hMj : M ≠ j := fun h => hj (h ▸ hM)
    simp [parseUserInput, hMj, hj4.1, hj4.2.1, hj4.2.2.1, hj4.2.2.2]
  have h1 : toChar (-1) ∉ modes := by decide
  exact ⟨key k hk, h1, key _ h1⟩

/-- Instance of C2: in mode `c`, the timeout value `-1` changes nothing. -/
theorem parseUserInput_ignores_witness :
    ch 'c' ∈ modes ∧ (-1 : Int) ∉ modes ∧ parseUserInput (-1) (ch 'c') = (ch 'c', []) :=
  ⟨by decide, by decide, (parseUserInput_ignores (ch 'c') (-1) (by decide) (by decide)).1⟩

/-- C3: for every current mode `M` (in particular each of `n`, `l`, `c`, `b`),
`parseUserInput(M, M)` leaves the mode `M` and writes exactly one notice (one
`endl`-terminated line), the "requested mode is currently enabled" notice, which is
none of the four activation notices. -/
theorem parseUserInput_same (M : Int) :
    (parseUserInput M M).1 = M
    ∧ (parseUserInput M M).2 = noticeCurrentlyEnabled M M
    ∧ (parseUserInput M M).2.count Out.endl = 1
    ∧ (parseUserInput M M).2 ≠ noticeDisableAll
    ∧ (parseUserInput M M).2 ≠ noticeLine
    ∧ (parseUserInput M M).2 ≠ noticeCircle
    ∧ (parseUserInput M M).2 ≠ noticeBoth := by
  simp [parseUserInput, noticeDisableAll, noticeLine, noticeCircle, noticeBoth,
    noticeCurrentlyEnabled]

/-- C5, as stated, fails: from mode `l` the inputs `n, l, c, b, n` end in mode `n`, not `l`. -/
theorem feed_cycle_counterexample :
    ch 'l' ∈ modes
    ∧ feed (ch 'l') [ch 'n', ch 'l', ch 'c', ch 'b', ch 'n'] = ch 'n'
    ∧ feed (ch 'l') [ch 'n', ch 'l', ch 'c', ch 'b', ch 'n'] ≠ ch 'l' := by
  decide

/-- C5, amended: from every starting mode `M` the inputs `n, l, c, b, n` end in mode `n`;
the mode returns to the original one exactly when `M` is `n`, the startup mode. -/
theorem feed_cycle_ends_in_n (M : Int) :
    feed M [ch 'n', ch 'l', ch 'c', ch 'b', ch 'n'] = ch 'n'
    ∧ (feed M [ch 'n', ch 'l', ch 'c', ch 'b', ch 'n'] = M ↔ M = ch 'n') := by
  have h : feed M [ch 'n', ch 'l', ch 'c', ch 'b', ch 'n'] = ch 'n' := by
    have h1 : (parseUserInput (ch 'n') M).1 = ch 'n' := by
      by_cases h : M = ch 'n' <;> simp [parseUserInput, h]
    simp only [feed, List.foldl_cons, List.foldl_nil, h1]
    decide
  exact ⟨h, by rw [h]; exact eq_comm⟩

/-- C9: starting from the startup mode `n`, after any finite sequence of characters fed
through `parseUserInput` the mode is one of `n`, `l`, `c`, `b` (and each of the four is
reached by some sequence), so `switch (mode)` never selects `default`; in `mainLoop`
the mode after every call of `parseUserInput`, and the final mode, are among the four. -/
theorem mode_always_valid {Mat Vec2f Vec3f : Type} (inputs : List Int)
    (V : Vision Mat Vec2f Vec3f) (isOpened : Bool) (cam : Nat → Mat) (keys : List Int) :
    feed (ch 'n') inputs ∈ modes
    ∧ switchBranch (feed (ch 'n') inputs) ≠ Branch.default
    ∧ (∀ m ∈ modes, ∃ ks, feed (ch 'n') ks = m)
    ∧ (mainLoop V isOpened cam keys).mode ∈ modes
    ∧ ∀ m ∈ modesAfter (mainLoop V isOpened cam keys).events,
        m ∈ modes ∧ switchBranch m ≠ Branch.default := by
  have hn : ch 'n' ∈ modes := by decide
  have hf := feed_mem_modes inputs (ch 'n') hn
  refine ⟨hf, switchBranch_ne_default _ hf, ?_, ?_, ?_⟩
  · intro m hm
    rw [mem_modes] at hm
    rcases hm with rfl | rfl | rfl | rfl
    · exact ⟨[], by decide⟩
    · exact ⟨[ch 'l'], by decide⟩
    · exact ⟨[ch 'c'], by decide⟩
    · exact ⟨[ch 'b'], by decide⟩
  · rw [mainLoop_mode]
    cases isOpened
    · exact hn
    · exact (whileLoop_modes V cam keys 0 (ch 'n') hn).1
  · intro m hm
    rw [modesAfter_mainLoop] at hm
    have hmm : m ∈ modes := by
      cases isOpened
      · simp at hm
      · exact (whileLoop_modes V cam keys 0 (ch 'n') hn).2 m hm
    exact ⟨hmm, switchBranch_ne_default m hmm⟩

/-! ## Frame annotation dispatch -/

/-- C6: with mode `n` the `switch` calls no vision-library function and leaves the frame
as it is; in a loop iteration whose mode after key processing is `n`, no vision call is
made, one frame is acquired, and the frame handed to `imshow` is that very frame. -/
theorem dispatch_none_identity {Mat Vec2f Vec3f : Type} (V : Vision Mat Vec2f Vec3f)
    (frame : Mat) (winInput mode : Int) (h : (parseUserInput winInput mode).1 = ch 'n') :
    dispatch V (ch 'n') frame = (frame, [])
    ∧ visionCalls (loopBody V frame winInput mode).1 = []
    ∧ reads (loopBody V frame winInput mode).1 = [frame]
    ∧ shown (loopBody V frame winInput mode).1 = [frame] := by
  have hd : dispatch V (ch 'n') frame = (frame, []) := by
    simp [dispatch, switchBranch]
  rw [visionCalls_loopBody, reads_loopBody, shown_loopBody, h, hd]
  exact ⟨rfl, rfl, rfl, rfl⟩

/-- Instance of C6: mode `n`, ignored key `x`, frame `7` of the demo library. -/
theorem dispatch_none_identity_witness :
    (parseUserInput (ch 'x') (ch 'n')).1 = ch 'n'
    ∧ dispatch demoVision (ch 'n') 7 = (7, [])
    ∧ shown (loopBody demoVision 7 (ch 'x') (ch 'n')).1 = [7] :=
  ⟨by decide,
    (dispatch_none_identity demoVision 7 (ch 'x') (ch 'n') (by decide)).1,
    (dispatch_none_identity demoVision 7 (ch 'x') (ch 'n') (by decide)).2.2.2⟩

/-- C7: for every frame and every vision library, the `switch` in mode `b` yields the
frame obtained by `doHoughLine` (standard transform) followed by `doHoughCircle` on
the frame `doHoughLine` returned, which is also the result of dispatching in mode `l`
and then in mode `c`; the calls made are those of the line step followed by those of
the circle step on the lined frame. -/
theorem dispatch_both_eq_line_then_circle {Mat Vec2f Vec3f : Type}
    (V : Vision Mat Vec2f Vec3f) (frame : Mat) :
    (dispatch V (ch 'b') frame).1 = (doHoughCircle V (doHoughLine V frame false).1).1
    ∧ (dispatch V (ch 'b') frame).1
        = (dispatch V (ch 'c') (dispatch V (ch 'l') frame).1).1
    ∧ (dispatch V (ch 'b') frame).2
        = (doHoughLine V frame false).2 ++ (doHoughCircle V (doHoughLine V frame false).1).2
    ∧ (dispatch V (ch 'b') frame).2
        = (dispatch V (ch 'l') frame).2 ++ (dispatch V (ch 'c') (dispatch V (ch 'l') frame).1).2 := by
  have hb : switchBranch (ch 'b') = Branch.caseB := by decide
  have hl : switchBranch (ch 'l') = Branch.caseL := by decide
  have hc : switchBranch (ch 'c') = Branch.caseC := by decide
  simp only [dispatch, hb, hl, hc]
  exact ⟨trivial, trivial, trivial, trivial⟩

/-- C10: in the loop iteration that handles a key `k` other than escape after the keys
`pre` (the escape poll leaves the loop before any call), with `mode` taken after
`parseUserInput`: the vision calls of the iteration are exactly what a library that
records its own calls has recorded when the `switch` has run against it, and the frame
shown is the frame computed there; in that record `Canny` and `HoughLines` occur exactly
when the mode is `l` or `b`, `medianBlur` and `HoughCircles` exactly when it is `c` or
`b`, and `HoughLinesP` does not occur; recording changes no frame. For every mode,
frame and earlier record, the record and frame of the `switch` run against the recording
library are the call log and frame of `dispatch`. No run of `mainLoop`, on any key
sequence, calls `HoughLinesP`, and the whole run (events, frames shown, mode, status)
is the same whatever function the library has for the probabilistic transform. -/
theorem detection_calls_match_mode {Mat Vec2f Vec3f : Type} (V : Vision Mat Vec2f Vec3f)
    (cam : Nat → Mat) (pre : List Int) (k : Int)
    (hpre : ∀ x ∈ pre, toChar x ≠ ESCAPE_KEY) (hk : toChar k ≠ ESCAPE_KEY) :
    (mainLoop V true cam (pre ++ [k])).events
      = (mainLoop V true cam pre).events ++ Event.waitKey 10 k ::
          (loopBody V (cam pre.length) (toChar k) (mainLoop V true cam pre).mode).1
    ∧ (mainLoop V true cam (pre ++ [k])).mode
      = (loopBody V (cam pre.length) (toChar k) (mainLoop V true cam pre).mode).2
    ∧ visionCalls (loopBody V (cam pre.length) (toChar k) (mainLoop V true cam pre).mode).1
      = (Lib.dispatch (Lib.recording V) (mainLoop V true cam (pre ++ [k])).mode []
          (cam pre.length)).1
    ∧ shown (loopBody V (cam pre.length) (toChar k) (mainLoop V true cam pre).mode).1
      = [(Lib.dispatch (Lib.recording V) (mainLoop V true cam (pre ++ [k])).mode []
          (cam pre.length)).2]
    ∧ (Call.Canny ∈ (Lib.dispatch (Lib.recording V) (mainLoop V true cam (pre ++ [k])).mode []
          (cam pre.length)).1
        ↔ (mainLoop V true cam (pre ++ [k])).mode = ch 'l'
          ∨ (mainLoop V true cam (pre ++ [k])).mode = ch 'b')
    ∧ (Call.HoughLines ∈ (Lib.dispatch (Lib.recording V)
          (mainLoop V true cam (pre ++ [k])).mode [] (cam pre.length)).1
        ↔ (mainLoop V true cam (pre ++ [k])).mode = ch 'l'
          ∨ (mainLoop V true cam (pre ++ [k])).mode = ch 'b')
    ∧ (Call.medianBlur ∈ (Lib.dispatch (Lib.recording V)
          (mainLoop V true cam (pre ++ [k])).mode [] (cam pre.length)).1
        ↔ (mainLoop V true cam (pre ++ [k])).mode = ch 'c'
          ∨ (mainLoop V true cam (pre ++ [k])).mode = ch 'b')
    ∧ (Call.HoughCircles ∈ (Lib.dispatch (Lib.recording V)
          (mainLoop V true cam (pre ++ [k])).mode [] (cam pre.length)).1
        ↔ (mainLoop V true cam (pre ++ [k])).mode = ch 'c'
          ∨ (mainLoop V true cam (pre ++ [k])).mode = ch 'b')
    ∧ Call.HoughLinesP ∉ (Lib.dispatch (Lib.recording V)
          (mainLoop V true cam (pre ++ [k])).mode [] (cam pre.length)).1
    ∧ (Lib.dispatch (Lib.recording V) (mainLoop V true cam (pre ++ [k])).mode []
          (cam pre.length)).2
      = (Lib.dispatch (Lib.plain V) (mainLoop V true cam (pre ++ [k])).mode ()
          (cam pre.length)).2
    ∧ (∀ (m : Int) (s : List Call) (f : Mat),
        Lib.dispatch (Lib.recording V) m s f = (s ++ (dispatch V m f).2, (dispatch V m f).1))
    ∧ ∀ (isOpened : Bool) (keys : List Int),
        Call.HoughLinesP ∉ visionCalls (mainLoop V isOpened cam keys).events
        ∧ ∀ hp : Mat → Int → Int → Int → Int → Int → List (Int × Int × Int × Int),
            mainLoop { V with HoughLinesP := hp } isOpened cam keys
              = mainLoop V isOpened cam keys := by
  have hrun := (whileLoop_running V cam pre 0 (ch 'n') hpre).1
  have hsnoc := whileLoop_snoc V cam pre k 0 (ch 'n') hpre hk
  have hrun2 : (whileLoop V cam (pre ++ [k]) 0 (ch 'n')).2.2 = false := by rw [hsnoc]
  have hbody : ∀ (f : Mat) (c m : Int), (loopBody V f c m).2 = (parseUserInput c m).1 :=
    fun _ _ _ => rfl
  rw [mainLoop_awaiting V cam _ hrun2, mainLoop_awaiting V cam _ hrun, hsnoc]
  simp only [Nat.zero_add, List.append_assoc, visionCalls_loopBody, shown_loopBody,
    dispatch_recording, dispatch_plain, List.nil_append, hbody]
  have hd := mem_dispatch V (parseUserInput (toChar k) (whileLoop V cam pre 0 (ch 'n')).2.1).1
    (cam pre.length)
  refine ⟨trivial, trivial, trivial, trivial, hd.1, hd.2.1, hd.2.2.1, hd.2.2.2.1, hd.2.2.2.2,
    trivial, fun _ _ _ => trivial, ?_⟩
  intro isOpened keys
  refine ⟨?_, fun hp => mainLoop_HoughLinesP V hp isOpened cam keys⟩
  rw [visionCalls_mainLoop]
  cases isOpened
  · simp
  · exact whileLoop_no_HoughLinesP V cam keys 0 (ch 'n')

/-- Instance of C10: after the keys `l`, timeout, the key `b`, on the demo library. -/
theorem detection_calls_match_mode_witness :
    (∀ x ∈ [ch 'l', -1], toChar x ≠ ESCAPE_KEY) ∧ toChar (ch 'b') ≠ ESCAPE_KEY
    ∧ Call.HoughLinesP ∉ (Lib.dispatch (Lib.recording demoVision)
        (mainLoop demoVision true demoCam ([ch 'l', -1] ++ [ch 'b'])).mode [] (demoCam 2)).1 :=
  ⟨by decide, by decide,
    (detection_calls_match_mode demoVision demoCam [ch 'l', -1] (ch 'b')
      (by decide) (by decide)).2.2.2.2.2.2.2.2.1⟩

/-! ## Termination of the main loop -/

/-- C8: let the polled keys be `pre`, then `k`, then `rest`, where `k` is the first key
that is the escape key (as stored in the `char winInput`; for every poll result in
`-128 .. 255` that means the value 27). The loop has not stopped after `pre`, and stops
in the iteration that polls `k`: that iteration contributes only the poll itself (no
call of `parseUserInput`, no frame acquired, annotated or shown), the mode stays what
it was, `rest` is never polled; then the exit notice is written once and the window is
released once. Each of the `pre.length` earlier iterations passes its key to
`parseUserInput`, acquires one frame (the next one of the camera) and shows one frame:
the acquired one annotated under the mode of that iteration. -/
theorem mainLoop_stops_at_first_escape {Mat Vec2f Vec3f : Type} (V : Vision Mat Vec2f Vec3f)
    (cam : Nat → Mat) (pre : List Int) (k : Int) (rest : List Int)
    (hpre : ∀ x ∈ pre, toChar x ≠ ESCAPE_KEY) (hk : toChar k = ESCAPE_KEY) :
    (mainLoop V true cam pre).status = Status.awaitingKey
    ∧ (mainLoop V true cam (pre ++ k :: rest)).status = Status.returned
    ∧ (mainLoop V true cam (pre ++ k :: rest)).events
        = (mainLoop V true cam pre).events ++ Event.waitKey 10 k ::
            (noticeExiting.map Event.cout ++ [Event.destroyWindow WIN_TITLE])
    ∧ (mainLoop V true cam (pre ++ k :: rest)).mode = (mainLoop V true cam pre).mode
    ∧ (mainLoop V true cam (pre ++ k :: rest)).mode = feed (ch 'n') (pre.map toChar)
    ∧ polls (mainLoop V true cam (pre ++ k :: rest)).events = pre ++ [k]
    ∧ parsed (mainLoop V true cam (pre ++ k :: rest)).events = pre.map toChar
    ∧ reads (mainLoop V true cam (pre ++ k :: rest)).events = (List.range pre.length).map cam
    ∧ shown (mainLoop V true cam (pre ++ k :: rest)).events
        = List.zipWith (fun mode frame => (dispatch V mode frame).1)
            (modesAfter (mainLoop V true cam (pre ++ k :: rest)).events)
            (reads (mainLoop V true cam (pre ++ k :: rest)).events)
    ∧ (shown (mainLoop V true cam (pre ++ k :: rest)).events).length = pre.length
    ∧ destroyed (mainLoop V true cam (pre ++ k :: rest)).events = [WIN_TITLE]
    ∧ (couts (mainLoop V true cam (pre ++ k :: rest)).events).count (Out.text "\t>> Exiting!") = 1
    ∧ ∀ j : Int, -128 ≤ j → j ≤ 255 → (toChar j = ESCAPE_KEY ↔ j = 27) := by
  obtain ⟨h1, h2, h3, h4, h5, h6, h7, h8, h9⟩ := whileLoop_running V cam pre 0 (ch 'n') hpre
  have hesc := whileLoop_append_escape V cam pre k rest 0 (ch 'n') hpre hk
  have hret : (whileLoop V cam (pre ++ k :: rest) 0 (ch 'n')).2.2 = true := by rw [hesc]
  rw [mainLoop_returned V cam _ hret, mainLoop_awaiting V cam _ h1, hesc]
  have hP : polls (setupEvents : List (Event Mat)) = [] := rfl
  have hQ : parsed (setupEvents : List (Event Mat)) = [] := rfl
  have hR : reads (setupEvents : List (Event Mat)) = [] := rfl
  have hS : shown (setupEvents : List (Event Mat)) = [] := rfl
  have hM : modesAfter (setupEvents : List (Event Mat)) = [] := rfl
  have hD : destroyed (setupEvents : List (Event Mat)) = [] := rfl
  have hC : couts (setupEvents : List (Event Mat)) = [] := rfl
  have hP1 : polls ([Event.waitKey 10 k] : List (Event Mat)) = [k] := rfl
  have hQ1 : parsed ([Event.waitKey 10 k] : List (Event Mat)) = [] := rfl
  have hR1 : reads ([Event.waitKey 10 k] : List (Event Mat)) = [] := rfl
  have hS1 : shown ([Event.waitKey 10 k] : List (Event Mat)) = [] := rfl
  have hM1 : modesAfter ([Event.waitKey 10 k] : List (Event Mat)) = [] := rfl
  have hD1 : destroyed ([Event.waitKey 10 k] : List (Event Mat)) = [] := rfl
  have hC1 : couts ([Event.waitKey 10 k] : List (Event Mat)) = [] := rfl
  have hP2 : polls (exitEvents : List (Event Mat)) = [] := rfl
  have hQ2 : parsed (exitEvents : List (Event Mat)) = [] := rfl
  have hR2 : reads (exitEvents : List (Event Mat)) = [] := rfl
  have hS2 : shown (exitEvents : List (Event Mat)) = [] := rfl
  have hM2 : modesAfter (exitEvents : List (Event Mat)) = [] := rfl
  have hD2 : destroyed (exitEvents : List (Event Mat)) = [WIN_TITLE] := rfl
  have hC2 : couts (exitEvents : List (Event Mat)) = noticeExiting := rfl
  have hlen : (shown (whileLoop V cam pre 0 (ch 'n')).1).length = pre.length := by
    rw [h6, List.length_zipWith, h7, h5]
    simp
  simp only [polls_append, parsed_append, reads_append, shown_append, modesAfter_append,
    destroyed_append, couts_append, hP, hQ, hR, hS, hM, hD, hC, hP1, hQ1, hR1, hS1, hM1, hD1,
    hC1, hP2, hQ2, hR2, hS2, hM2, hD2, hC2, List.nil_append, List.append_nil, h3, h4, h8]
  refine ⟨trivial, trivial, ?_, trivial, h2, trivial, trivial, ?_, h6, hlen, trivial, ?_,
    toChar_eq_ESCAPE_KEY_iff⟩
  · simp [exitEvents]
  · rw [h5]; simp
  · rw [List.count_append, List.count_eq_zero_of_not_mem h9]
    decide

/-- Instance of C8: the keys `l`, timeout, escape, `c` on the demo library. -/
theorem mainLoop_stops_at_first_escape_witness :
    (∀ x ∈ [ch 'l', -1], toChar x ≠ ESCAPE_KEY) ∧ toChar 27 = ESCAPE_KEY
    ∧ (mainLoop demoVision true demoCam ([ch 'l', -1] ++ 27 :: [ch 'c'])).status
        = Status.returned
    ∧ polls (mainLoop demoVision true demoCam ([ch 'l', -1] ++ 27 :: [ch 'c'])).events
        = [ch 'l', -1] ++ [27] :=
  ⟨by decide, by decide,
    (mainLoop_stops_at_first_escape demoVision demoCam [ch 'l', -1] 27 [ch 'c']
      (by decide) (by decide)).2.1,
    (mainLoop_stops_at_first_escape demoVision demoCam [ch 'l', -1] 27 [ch 'c']
      (by decide) (by decide)).2.2.2.2.2.1⟩

/-! ## End-to-end scenario -/

/-- C4: `mainLoop`, started in mode `n`, on the polled keys `x`, `l`, `l`, `c`, escape:
the mode trace is `n, n, l, l, c` followed by termination; the dialogue is: key `x`
(nothing written), key `l` and the line notice, key `l` and the "currently enabled"
notice, key `c` and the circle notice, escape and the exit notice; all five keys are
polled and `mainLoop` returns. -/
theorem mainLoop_scenario {Mat Vec2f Vec3f : Type} (V : Vision Mat Vec2f Vec3f)
    (cam : Nat → Mat) :
    stateTrace (mainLoop V true cam [ch 'x', ch 'l', ch 'l', ch 'c', ESCAPE_KEY])
      = [LoopState.running (ch 'n'), LoopState.running (ch 'n'), LoopState.running (ch 'l'),
         LoopState.running (ch 'l'), LoopState.running (ch 'c'), LoopState.terminated]
    ∧ dialogue (mainLoop V true cam [ch 'x', ch 'l', ch 'l', ch 'c', ESCAPE_KEY]).events
      = [Dialogue.key (ch 'x')]
        ++ Dialogue.key (ch 'l') :: noticeLine.map Dialogue.out
        ++ Dialogue.key (ch 'l') :: (noticeCurrentlyEnabled (ch 'l') (ch 'l')).map Dialogue.out
        ++ Dialogue.key (ch 'c') :: noticeCircle.map Dialogue.out
        ++ Dialogue.key ESCAPE_KEY :: noticeExiting.map Dialogue.out
    ∧ polls (mainLoop V true cam [ch 'x', ch 'l', ch 'l', ch 'c', ESCAPE_KEY]).events
      = [ch 'x', ch 'l', ch 'l', ch 'c', ESCAPE_KEY]
    ∧ (mainLoop V true cam [ch 'x', ch 'l', ch 'l', ch 'c', ESCAPE_KEY]).status
      = Status.returned := by
  have hx : parseUserInput (toChar (ch 'x')) (ch 'n') = (ch 'n', []) := by decide
  have hl1 : parseUserInput (toChar (ch 'l')) (ch 'n') = (ch 'l', noticeLine) := by decide
  have hl2 : parseUserInput (toChar (ch 'l')) (ch 'l')
      = (ch 'l', noticeCurrentlyEnabled (ch 'l') (ch 'l')) := by decide
  have hc : parseUserInput (toChar (ch 'c')) (ch 'l') = (ch 'c', noticeCircle) := by decide
  have e : whileLoop V cam [ch 'x', ch 'l', ch 'l', ch 'c', ESCAPE_KEY] 0 (ch 'n')
      = ([Event.waitKey 10 (ch 'x')] ++ (loopBody V (cam 0) (toChar (ch 'x')) (ch 'n')).1
          ++ ([Event.waitKey 10 (ch 'l')] ++ (loopBody V (cam 1) (toChar (ch 'l')) (ch 'n')).1
          ++ ([Event.waitKey 10 (ch 'l')] ++ (loopBody V (cam 2) (toChar (ch 'l')) (ch 'l')).1
          ++ ([Event.waitKey 10 (ch 'c')] ++ (loopBody V (cam 3) (toChar (ch 'c')) (ch 'l')).1
          ++ [Event.waitKey 10 ESCAPE_KEY]))), ch 'c', true) := by
    rw [whileLoop_step V cam _ _ _ _ (by decide), hx,
      whileLoop_step V cam _ _ _ _ (by decide), hl1,
      whileLoop_step V cam _ _ _ _ (by decide), hl2,
      whileLoop_step V cam _ _ _ _ (by decide), hc,
      whileLoop_escape V cam _ _ _ _ (by decide)]
  have hret : (whileLoop V cam [ch 'x', ch 'l', ch 'l', ch 'c', ESCAPE_KEY] 0 (ch 'n')).2.2
      = true := by rw [e]
  rw [mainLoop_returned V cam _ hret, e]
  have hM : modesAfter (setupEvents : List (Event Mat)) = [] := rfl
  have hM2 : modesAfter (exitEvents : List (Event Mat)) = [] := rfl
  have hM1 : ∀ j, modesAfter ([Event.waitKey 10 j] : List (Event Mat)) = [] := fun _ => rfl
  have hD : dialogue (setupEvents : List (Event Mat)) = [] := rfl
  have hD2 : dialogue (exitEvents : List (Event Mat)) = noticeExiting.map Dialogue.out := rfl
  have hD1 : ∀ j, dialogue ([Event.waitKey 10 j] : List (Event Mat)) = [Dialogue.key j] :=
    fun _ => rfl
  have hP : polls (setupEvents : List (Event Mat)) = [] := rfl
  have hP2 : polls (exitEvents : List (Event Mat)) = [] := rfl
  have hP1 : ∀ j, polls ([Event.waitKey 10 j] : List (Event Mat)) = [j] := fun _ => rfl
  simp only [stateTrace, modesAfter_append, dialogue_append, polls_append, modesAfter_loopBody,
    dialogue_loopBody, polls_loopBody, hM, hM1, hM2, hD, hD1, hD2, hP, hP1, hP2, hx, hl1, hl2, hc]
  simp

end Hough
